import Mathlib

/-!
Verification development for the advisory-coordination core of the
KrishiMitra backend (backend/app/coordination/coordinator.py together with
the data model of backend/app/models/schemas.py).

The Python code is shallowly embedded: every coordinator method becomes a
Lean function on explicit data, Python int becomes Int, Python float
becomes the exact rationals the code manipulates, a failing producer
becomes an Except value, and in-place mutation of the recommendation list
becomes explicit state passing.
-/

/-- Embedding of schemas.AgentRecommendation.  The priority field is an
Int because the conflict resolver writes arbitrary results of the form
10 - i into it; the pydantic constructor constraint (1..10) appears as a
hypothesis in the theorems that need it.  The opaque pydantic dict fields
(details, cost_estimate) are kept as association lists so that the frame
theorems can speak about them. -/
structure AgentRecommendation where
  agent : String
  priority : Int
  confidence_score : ℚ
  summary : String
  explanation : String
  data_sources : List String
  details : List (String × String)
  tasks : List String
  risk_level : Option String
  estimated_impact : Option String
  cost_estimate : Option (List (String × String))
deriving Repr, DecidableEq

/-- Embedding of schemas.FarmerProfile restricted to the fields the
coordinator reads (crop and growth_stage are the enum string values;
growth_stage is None or a non-empty enum value, so Python truthiness is
Option.isSome). -/
structure FarmerProfile where
  farmer_id : String
  crop : String
  growth_stage : Option String
deriving Repr, DecidableEq

/-- Embedding of schemas.AdvisoryRequest restricted to the fields the
coordinator reads. -/
structure AdvisoryRequest where
  profile : FarmerProfile
  horizon_days : Int
  language : String
deriving Repr, DecidableEq

/-- Embedding of one entry of AdvisoryCoordinator.conflict_rules. -/
structure ConflictRule where
  name : String
  priority_order : List String
  time_gap_days : Int
deriving Repr, DecidableEq

/-- Embedding of the dict returned by _generate_risk_assessment. -/
structure RiskAssessment where
  overall_risk_level : String
  agent_risks : List (String × String)
  high_risk_agents : List String
  medium_risk_agents : List String
  risk_mitigation_priority : List String
deriving Repr, DecidableEq

/-- Entry of the weather summary dict (summary, risk_level, confidence). -/
structure WeatherSummaryEntry where
  summary : String
  risk_level : Option String
  confidence : ℚ
deriving Repr, DecidableEq

/-- Entry of the market summary dict (summary, estimated_impact, confidence). -/
structure MarketSummaryEntry where
  summary : String
  estimated_impact : Option String
  confidence : ℚ
deriving Repr, DecidableEq

/-- Entry of the soil summary dict (summary, priority, confidence). -/
structure SoilSummaryEntry where
  summary : String
  priority : Int
  confidence : ℚ
deriving Repr, DecidableEq

/-- Embedding of schemas.AdvisoryResponse restricted to the fields the
coordinator computes (generated_at and response_time_ms are wall-clock
data outside the model). -/
structure AdvisoryResponse where
  farmer_id : String
  crop : String
  horizon_days : Int
  recommendations : List AgentRecommendation
  unified_plan : List String
  confidence_overall : ℚ
  risk_assessment : RiskAssessment
  weather_summary : List (String × WeatherSummaryEntry)
  market_summary : List (String × MarketSummaryEntry)
  soil_summary : List (String × SoilSummaryEntry)
deriving Repr, DecidableEq

/-- Keys of AdvisoryCoordinator.agents in dict insertion order: the
producer registry. -/
def agent_names : List String :=
  ["irrigation", "fertilizer", "pest", "market", "weather_risk",
   "seed_crop", "finance_policy"]

/-- AdvisoryCoordinator.conflict_rules in dict insertion order. -/
def conflict_rules : List ConflictRule :=
  [⟨"irrigation_fertilizer", ["irrigation", "fertilizer"], 1⟩,
   ⟨"weather_risk_irrigation", ["weather_risk", "irrigation"], 0⟩,
   ⟨"pest_fertilizer", ["pest", "fertilizer"], 2⟩]

/-- Association-list lookup with a default, embedding dict.get(k, d). -/
def lookupD (m : List (String × String)) (k d : String) : String :=
  match m with
  | [] => d
  | (k2, v) :: rest => if k2 = k then v else lookupD rest k d

/-- Association-list update, embedding d[k] = v on a Python dict: the
first binding of the key is replaced in place, a new key is appended. -/
def updateAssoc {α : Type} (m : List (String × α)) (k : String) (v : α) :
    List (String × α) :=
  match m with
  | [] => [(k, v)]
  | (k2, w) :: rest =>
    if k2 = k then (k2, v) :: rest else (k2, w) :: updateAssoc rest k v

/-- The fallback_summaries table of _create_fallback_recommendation. -/
def fallback_summaries : List (String × String) :=
  [("irrigation", "Monitor soil moisture and irrigate as needed"),
   ("fertilizer", "Apply balanced fertilizer based on soil test"),
   ("pest", "Monitor for pest activity and apply control measures if needed"),
   ("market", "Monitor market prices and sell at appropriate time"),
   ("weather_risk", "Monitor weather forecasts for potential risks"),
   ("seed_crop", "Select appropriate crop variety for your region"),
   ("finance_policy", "Check for available government schemes and loans")]

/-- Embedding of AdvisoryCoordinator._create_fallback_recommendation. -/
def create_fallback_recommendation (agent_name : String)
    (_request : AdvisoryRequest) : AgentRecommendation :=
  { agent := agent_name
    priority := 5
    confidence_score := 1/2
    summary := lookupD fallback_summaries agent_name "General recommendation"
    explanation := "Fallback recommendation for " ++ agent_name ++ " agent"
    data_sources := ["Fallback"]
    details := []
    tasks := [lookupD fallback_summaries agent_name
                "Follow general best practices"]
    risk_level := some "low"
    estimated_impact := some "neutral"
    cost_estimate := none }

/-- The result of one producer call: the Recommendation it returned, or
the error it raised. -/
abbrev ProducerOutcome := Except Unit AgentRecommendation

/-- Embedding of the result-collection loop of build_advisory_plan
(lines 136-145): given the per-producer outcomes of the awaited tasks,
walk the registry in order and append, per producer, its result on
success and the fallback Recommendation on failure.  This loop is only
reached if the task-creation loop (lines 130-133) raised nothing; task
creation itself is modeled by create_tasks_check below. -/
def agent_outputs (request : AdvisoryRequest)
    (outcomes : String → ProducerOutcome) : List AgentRecommendation :=
  agent_names.foldl
    (fun acc name =>
      acc ++ [match outcomes name with
              | Except.ok r => r
              | Except.error _ => create_fallback_recommendation name request])
    []

/-- Last index of a in l, embedding the effect of the Python enumerate
loop in which a later assignment to the same key wins. -/
def lastIdxOf (a : String) : List String → Option Nat
  | [] => none
  | b :: l =>
    match lastIdxOf a l with
    | some i => some (i + 1)
    | none => if b = a then some 0 else none

/-- Priority rewrite applied to one recommendation list entry by
_apply_conflict_rule: the dict involved_agents holds, per agent name, the
last list entry with that name, so exactly the last occurrence of each
involved agent is mutated, and its new priority is 10 minus the last
index of its name in priority_order. -/
def apply_mut (order : List String) : List AgentRecommendation →
    List AgentRecommendation
  | [] => []
  | r :: rs =>
    (if r.agent ∈ order ∧ rs.all (fun r2 => r2.agent ≠ r.agent) then
       match lastIdxOf r.agent order with
       | some i => { r with priority := 10 - (i : Int) }
       | none => r
     else r) :: apply_mut order rs

/-- Embedding of AdvisoryCoordinator._apply_conflict_rule: collect the
distinct agent names present both in the list and in the rule; if fewer
than two, the rule is a no-op, otherwise rewrite priorities. -/
def apply_conflict_rule (recommendations : List AgentRecommendation)
    (rule : ConflictRule) : List AgentRecommendation :=
  let order := rule.priority_order
  let involved :=
    ((recommendations.filter (fun r => decide (r.agent ∈ order))).map
      (fun r => r.agent)).dedup
  if 2 ≤ involved.length then apply_mut order recommendations
  else recommendations

/-- Python str.lower, characterwise. -/
def py_lower (s : String) : String :=
  String.mk (s.data.map Char.toLower)

/-- Python str.replace(c, "") for a one-character pattern: replacing each
occurrence of the character by the empty string deletes it. -/
def py_remove_char (s : String) (c : Char) : String :=
  String.mk (s.data.filter (fun d => !(d = c)))

/-- Task normalization of _remove_duplicate_tasks:
task.lower().replace(" ", "").replace(".", ""). -/
def task_key (task : String) : String :=
  py_remove_char (py_remove_char (py_lower task) ' ') '.'

/-- One recommendation of _remove_duplicate_tasks: filter its task list
against the seen set, returning the kept tasks and the grown seen set. -/
def dedup_step (seen : List String) : List String → List String × List String
  | [] => ([], seen)
  | t :: ts =>
    if task_key t ∈ seen then dedup_step seen ts
    else
      let p := dedup_step (task_key t :: seen) ts
      (t :: p.1, p.2)

/-- The recommendation walk of _remove_duplicate_tasks with the seen set
threaded through. -/
def dedup_walk (seen : List String) : List AgentRecommendation →
    List AgentRecommendation
  | [] => []
  | r :: rs =>
    let p := dedup_step seen r.tasks
    { r with tasks := p.1 } :: dedup_walk p.2 rs

/-- Embedding of AdvisoryCoordinator._remove_duplicate_tasks. -/
def remove_duplicate_tasks (recommendations : List AgentRecommendation) :
    List AgentRecommendation :=
  dedup_walk [] recommendations

/-- The descending stable sort of _resolve_conflicts:
resolved.sort(key=lambda r: r.priority, reverse=True). -/
def sort_by_priority_desc (recommendations : List AgentRecommendation) :
    List AgentRecommendation :=
  recommendations.mergeSort (fun a b => decide (b.priority ≤ a.priority))

/-- Embedding of AdvisoryCoordinator._resolve_conflicts: sort descending
by priority, apply every conflict rule in registry order, then remove
duplicate tasks. -/
def resolve_conflicts (recommendations : List AgentRecommendation) :
    List AgentRecommendation :=
  remove_duplicate_tasks
    (conflict_rules.foldl apply_conflict_rule
      (sort_by_priority_desc recommendations))

/-- The language_translations table of the coordinator constructor. -/
def language_translations : List (String × List (String × String)) :=
  [("hi",
    [("irrigation", "सिंचाई"), ("fertilizer", "उर्वरक"), ("pest", "कीट"),
     ("market", "बाजार"), ("weather_risk", "मौसम जोखिम"),
     ("seed_crop", "बीज फसल"), ("finance_policy", "वित्त नीति"),
     ("high_priority", "उच्च प्राथमिकता"),
     ("medium_priority", "मध्यम प्राथमिकता"),
     ("low_priority", "कम प्राथमिकता"), ("risk_level", "जोखिम स्तर"),
     ("confidence", "विश्वास"), ("recommendations", "सिफारिशें")]),
   ("pa",
    [("irrigation", "ਸਿੰਚਾਈ"), ("fertilizer", "ਖਾਦ"), ("pest", "ਕੀੜਾ"),
     ("market", "ਬਾਜ਼ਾਰ"), ("weather_risk", "ਮੌਸਮ ਜੋਖਮ"),
     ("seed_crop", "ਬੀਜ ਫਸਲ"), ("finance_policy", "ਵਿੱਤ ਨੀਤੀ")]),
   ("bn",
    [("irrigation", "সেচ"), ("fertilizer", "সার"), ("pest", "পোকা"),
     ("market", "বাজার"), ("weather_risk", "আবহাওয়া ঝুঁকি"),
     ("seed_crop", "বীজ ফসল"), ("finance_policy", "অর্থনীতি নীতি")])]

/-- Membership of a language tag among the translation table keys. -/
def knownLanguage (language : String) : Bool :=
  (language_translations.map (fun p => p.1)).contains language

/-- Embedding of AdvisoryCoordinator._translate_text: identity for en or
an unknown language, otherwise fold str.replace over the table entries. -/
def translate_text (text : String) (language : String) : String :=
  if language = "en" ∨ ¬ knownLanguage language then text
  else
    match language_translations.find? (fun p => p.1 = language) with
    | some p =>
      p.2.foldl (fun t (e : String × String) => t.replace e.1 e.2) text
    | none => text

/-- Embedding of AdvisoryCoordinator._translate_recommendation. -/
def translate_recommendation (recommendation : AgentRecommendation)
    (language : String) : AgentRecommendation :=
  if language = "en" then recommendation
  else
    { recommendation with
      summary := translate_text recommendation.summary language
      explanation := translate_text recommendation.explanation language
      tasks := recommendation.tasks.map
        (fun task => translate_text task language) }

/-- Tier accumulation loop of _generate_unified_plan (lines 249-255):
walk the recommendations once, extending the high bucket when priority is
at least 8, the medium bucket when it is 6 or 7, the low bucket
otherwise. -/
def tier_buckets (recommendations : List AgentRecommendation) :
    List String × List String × List String :=
  recommendations.foldl
    (fun acc r =>
      if 8 ≤ r.priority then (acc.1 ++ r.tasks, acc.2.1, acc.2.2)
      else if 6 ≤ r.priority then (acc.1, acc.2.1 ++ r.tasks, acc.2.2)
      else (acc.1, acc.2.1, acc.2.2 ++ r.tasks))
    ([], [], [])

/-- The fixed closing task of _generate_unified_plan. -/
def monitor_weather_task : String :=
  "Monitor weather conditions and adjust plans accordingly"

/-- Embedding of AdvisoryCoordinator._generate_unified_plan. -/
def generate_unified_plan (recommendations : List AgentRecommendation)
    (request : AdvisoryRequest) : List String :=
  let buckets := tier_buckets recommendations
  let plan := buckets.1.take 3 ++ buckets.2.1.take 4 ++ buckets.2.2.take 3
  let plan :=
    match request.profile.growth_stage with
    | some stage =>
      plan ++ ["Monitor " ++ request.profile.crop ++ " during " ++ stage ++
               " stage"]
    | none => plan
  (plan ++ [monitor_weather_task]).take 10

/-- Embedding of AdvisoryCoordinator._calculate_overall_confidence: the
running total_weight and weighted_confidence accumulators of the loop. -/
def calculate_overall_confidence
    (recommendations : List AgentRecommendation) : ℚ :=
  if recommendations.isEmpty then 1/2
  else
    let acc := recommendations.foldl
      (fun acc r =>
        (acc.1 + r.priority, acc.2 + r.confidence_score * (r.priority : ℚ)))
      ((0 : Int), (0 : ℚ))
    if 0 < acc.1 then acc.2 / (acc.1 : ℚ) else 1/2

/-- Python truthiness of an Optional[str] risk level. -/
def truthyRisk (o : Option String) : Bool :=
  match o with
  | some s => !(s = "")
  | none => false

/-- Embedding of AdvisoryCoordinator._generate_risk_assessment. -/
def generate_risk_assessment
    (recommendations : List AgentRecommendation) : RiskAssessment :=
  let risk_levels := recommendations.foldl
    (fun acc r =>
      if truthyRisk r.risk_level then
        updateAssoc acc r.agent (r.risk_level.getD "")
      else acc)
    []
  let high_risks :=
    (recommendations.filter
      (fun r => decide (r.risk_level = some "high"))).map (fun r => r.agent)
  let medium_risks :=
    (recommendations.filter
      (fun r => decide (r.risk_level = some "medium"))).map (fun r => r.agent)
  let overall := if high_risks.isEmpty then
                   (if medium_risks.isEmpty then "low" else "medium")
                 else "high"
  { overall_risk_level := overall
    agent_risks := risk_levels
    high_risk_agents := high_risks
    medium_risk_agents := medium_risks
    risk_mitigation_priority := high_risks ++ medium_risks }

/-- Embedding of AdvisoryCoordinator._generate_weather_summary. -/
def generate_weather_summary
    (recommendations : List AgentRecommendation) :
    List (String × WeatherSummaryEntry) :=
  recommendations.foldl
    (fun acc r =>
      if r.agent ∈ ["irrigation", "weather_risk"] then
        updateAssoc acc r.agent ⟨r.summary, r.risk_level, r.confidence_score⟩
      else acc)
    []

/-- Embedding of AdvisoryCoordinator._generate_market_summary. -/
def generate_market_summary
    (recommendations : List AgentRecommendation) :
    List (String × MarketSummaryEntry) :=
  recommendations.foldl
    (fun acc r =>
      if r.agent ∈ ["market", "finance_policy"] then
        updateAssoc acc r.agent
          ⟨r.summary, r.estimated_impact, r.confidence_score⟩
      else acc)
    []

/-- Embedding of AdvisoryCoordinator._generate_soil_summary. -/
def generate_soil_summary
    (recommendations : List AgentRecommendation) :
    List (String × SoilSummaryEntry) :=
  recommendations.foldl
    (fun acc r =>
      if r.agent ∈ ["irrigation", "fertilizer", "seed_crop"] then
        updateAssoc acc r.agent ⟨r.summary, r.priority, r.confidence_score⟩
      else acc)
    []

/-- The continuation of build_advisory_plan from the join point onward
(lines 136-187): collect the awaited per-producer outcomes with fallback
substitution, resolve conflicts, translate when requested, synthesize
the plan and aggregate confidence, risk and summaries.  With the fixed
registry this path is never reached (see build_advisory_plan below), but
it is the code as written for the stages past task creation, which the
spec describes and claims C4 to C10 are about. -/
def joined_advisory_response (request : AdvisoryRequest)
    (outcomes : String → ProducerOutcome) : AdvisoryResponse :=
  let outputs := agent_outputs request outcomes
  let resolved := resolve_conflicts outputs
  let resolved :=
    if request.language ≠ "en" then
      resolved.map (fun r => translate_recommendation r request.language)
    else resolved
  let plan := generate_unified_plan resolved request
  let plan :=
    if request.language ≠ "en" then
      plan.map (fun t => translate_text t request.language)
    else plan
  { farmer_id := request.profile.farmer_id
    crop := request.profile.crop
    horizon_days := request.horizon_days
    recommendations := resolved
    unified_plan := plan
    confidence_overall := calculate_overall_confidence resolved
    risk_assessment := generate_risk_assessment resolved
    weather_summary := generate_weather_summary resolved
    market_summary := generate_market_summary resolved
    soil_summary := generate_soil_summary resolved }

/-- Whether the registered agent declares recommend with async def (a
coroutine function), read off the agent sources: irrigation.py, pest.py,
weather_risk.py, seed_crop.py and finance_policy.py do; fertilizer.py
line 13 and market.py line 10 define plain synchronous methods. -/
def agent_recommend_is_coroutine (name : String) : Bool :=
  name ∈ ["irrigation", "pest", "weather_risk", "seed_crop",
          "finance_policy"]

/-- An exception escaping build_advisory_plan itself (no handler in the
function): typeError is the TypeError that asyncio.create_task raises
when handed the plain value returned by a synchronous recommend method,
and uncaught is an exception raised by such a synchronous recommend body
itself, which runs eagerly at argument-evaluation time on line 132,
outside the try/except of the await loop. -/
inductive PipelineError where
  | typeError (agent_name : String)
  | uncaught (agent_name : String)
deriving Repr, DecidableEq

/-- Embedding of the task-creation loop of build_advisory_plan (lines
130-133, no try/except): walk the registry in order; an agent whose
recommend is a coroutine function yields a task without raising, while a
synchronous agent first runs its recommend body (propagating its own
exception as uncaught) and then makes asyncio.create_task raise
typeError on the returned plain value.  Returns the first escaping
exception, none when every task is created. -/
def create_tasks_check (outcomes : String → ProducerOutcome) :
    List String → Option PipelineError
  | [] => none
  | name :: rest =>
    if agent_recommend_is_coroutine name then create_tasks_check outcomes rest
    else
      match outcomes name with
      | Except.ok _ => some (PipelineError.typeError name)
      | Except.error _ => some (PipelineError.uncaught name)

/-- Embedding of AdvisoryCoordinator.build_advisory_plan: the
task-creation loop runs first and any exception it raises escapes the
function (there is no handler around lines 130-133); only if every
create_task call succeeds does the join point run and the response get
built. -/
def build_advisory_plan (request : AdvisoryRequest)
    (outcomes : String → ProducerOutcome) :
    Except PipelineError AdvisoryResponse :=
  match create_tasks_check outcomes agent_names with
  | some e => Except.error e
  | none => Except.ok (joined_advisory_response request outcomes)

/-! ## Spec-side reference functions -/

/-- A recommendation with a given priority/confidence/tasks/risk, used to
instantiate theorems on concrete inputs. -/
def sampleRec (a : String) (p : Int) (c : ℚ) (ts : List String)
    (rl : Option String) : AgentRecommendation :=
  { agent := a, priority := p, confidence_score := c, summary := "s"
    explanation := "e", data_sources := [], details := [], tasks := ts
    risk_level := rl, estimated_impact := none, cost_estimate := none }

/-- Forget the priority of a recommendation (for frame theorems: two
recommendations agree on every field except possibly priority iff their
images under erase_priority are equal). -/
def erase_priority (r : AgentRecommendation) : AgentRecommendation :=
  { r with priority := 0 }

/-- Forget the task list of a recommendation (for frame theorems about
the deduplicator, which touches only task lists). -/
def erase_tasks (r : AgentRecommendation) : AgentRecommendation :=
  { r with tasks := [] }

/-- First-occurrence filter on one flat task list: keep a task iff no
earlier task (nor the ambient seen set) has the same normalized key. -/
def first_occurrence_filter (seen : List String) :
    List String → List String
  | [] => []
  | t :: ts =>
    if task_key t ∈ seen then first_occurrence_filter seen ts
    else t :: first_occurrence_filter (task_key t :: seen) ts

/-! ## Deduplicator lemmas -/

theorem dedup_step_fst (seen : List String) (ts : List String) :
    (dedup_step seen ts).1 = first_occurrence_filter seen ts := by
  induction ts generalizing seen with
  | nil => rfl
  | cons t ts ih =>
    simp only [dedup_step, first_occurrence_filter]
    split
    · exact ih seen
    · simp [ih]

theorem mem_dedup_step_snd (seen ts : List String) (k : String) :
    k ∈ (dedup_step seen ts).2 ↔ k ∈ seen ∨ k ∈ ts.map task_key := by
  induction ts generalizing seen with
  | nil => simp [dedup_step]
  | cons t ts ih =>
    simp only [dedup_step, List.map_cons, List.mem_cons]
    split
    · rename_i hmem
      rw [ih]
      constructor
      · rintro (h | h)
        · exact Or.inl h
        · exact Or.inr (Or.inr h)
      · rintro (h | h | h)
        · exact Or.inl h
        · exact Or.inl (h ▸ hmem)
        · exact Or.inr h
    · rw [ih]
      simp only [List.mem_cons]
      tauto

theorem first_occurrence_filter_append (seen xs ys : List String) :
    first_occurrence_filter seen (xs ++ ys) =
      first_occurrence_filter seen xs ++
        first_occurrence_filter (dedup_step seen xs).2 ys := by
  induction xs generalizing seen with
  | nil => simp [first_occurrence_filter, dedup_step]
  | cons t ts ih =>
    simp only [List.cons_append, first_occurrence_filter, dedup_step]
    split
    · exact ih seen
    · simp [ih]

theorem dedup_walk_flatMap (seen : List String)
    (recs : List AgentRecommendation) :
    (dedup_walk seen recs).flatMap (fun r => r.tasks) =
      first_occurrence_filter seen (recs.flatMap (fun r => r.tasks)) := by
  induction recs generalizing seen with
  | nil => rfl
  | cons r rs ih =>
    simp only [dedup_walk, List.flatMap_cons, first_occurrence_filter_append]
    rw [ih, dedup_step_fst]

theorem first_occurrence_filter_nodup (seen l : List String) :
    ((first_occurrence_filter seen l).map task_key).Nodup ∧
      ∀ k ∈ (first_occurrence_filter seen l).map task_key, k ∉ seen := by
  induction l generalizing seen with
  | nil => simp [first_occurrence_filter]
  | cons t ts ih =>
    simp only [first_occurrence_filter]
    split
    · exact ih seen
    · rename_i hns
      obtain ⟨h1, h2⟩ := ih (task_key t :: seen)
      refine ⟨?_, ?_⟩
      · simp only [List.map_cons, List.nodup_cons]
        refine ⟨fun hmem => ?_, h1⟩
        exact (h2 _ hmem) (List.mem_cons_self _ _)
      · intro k hk
        simp only [List.map_cons, List.mem_cons] at hk
        rcases hk with hk | hk
        · exact hk ▸ hns
        · intro hks
          exact (h2 _ hk) (List.mem_cons_of_mem _ hks)

theorem dedup_step_of_nodup (seen ts : List String)
    (h1 : (ts.map task_key).Nodup)
    (h2 : ∀ k ∈ ts.map task_key, k ∉ seen) :
    dedup_step seen ts = (ts, (dedup_step seen ts).2) := by
  induction ts generalizing seen with
  | nil => rfl
  | cons t ts ih =>
    simp only [List.map_cons, List.nodup_cons] at h1
    have hkt : task_key t ∉ seen :=
      h2 _ (by simp)
    simp only [dedup_step, if_neg hkt]
    have h2t : ∀ k ∈ ts.map task_key, k ∉ task_key t :: seen := by
      intro k hk
      simp only [List.mem_cons, not_or]
      exact ⟨fun he => h1.1 (he ▸ hk), h2 _ (by simp [hk])⟩
    rw [Prod.ext_iff]
    constructor
    · simp only
      rw [congrArg Prod.fst (ih (task_key t :: seen) h1.2 h2t)]
    · rfl

theorem dedup_walk_of_nodup (seen : List String)
    (recs : List AgentRecommendation)
    (h1 : ((recs.flatMap (fun r => r.tasks)).map task_key).Nodup)
    (h2 : ∀ k ∈ (recs.flatMap (fun r => r.tasks)).map task_key, k ∉ seen) :
    dedup_walk seen recs = recs := by
  induction recs generalizing seen with
  | nil => rfl
  | cons r rs ih =>
    simp only [List.flatMap_cons, List.map_append, List.nodup_append] at h1
    simp only [List.flatMap_cons, List.map_append, List.mem_append] at h2
    obtain ⟨ha, hb, hdisj⟩ := h1
    have hstep := dedup_step_of_nodup seen r.tasks ha
      (fun k hk => h2 k (Or.inl hk))
    simp only [dedup_walk]
    rw [hstep]
    have hrec : { r with tasks := r.tasks } = r := rfl
    rw [hrec]
    congr 1
    apply ih
    · exact hb
    · intro k hk
      rw [mem_dedup_step_snd]
      simp only [not_or]
      exact ⟨h2 k (Or.inr hk), fun hks => hdisj hks hk⟩

theorem dedup_walk_shape (seen : List String)
    (recs : List AgentRecommendation) :
    (dedup_walk seen recs).map erase_tasks = recs.map erase_tasks := by
  induction recs generalizing seen with
  | nil => rfl
  | cons r rs ih =>
    simp only [dedup_walk, List.map_cons]
    refine congrArg₂ _ rfl (ih _)

/-! ## Plan-synthesis lemmas -/

/-- Flattened task list of the high tier (priority at least 8). -/
def high_tier_tasks (recs : List AgentRecommendation) : List String :=
  (recs.filter (fun r => decide (8 ≤ r.priority))).flatMap (fun r => r.tasks)

/-- Flattened task list of the medium tier (priority 6 or 7). -/
def medium_tier_tasks (recs : List AgentRecommendation) : List String :=
  (recs.filter (fun r => decide (6 ≤ r.priority ∧ r.priority ≤ 7))).flatMap
    (fun r => r.tasks)

/-- Flattened task list of the low tier (priority at most 5). -/
def low_tier_tasks (recs : List AgentRecommendation) : List String :=
  (recs.filter (fun r => decide (r.priority ≤ 5))).flatMap (fun r => r.tasks)

theorem tier_buckets_foldl (recs : List AgentRecommendation)
    (acc : List String × List String × List String) :
    recs.foldl
      (fun acc r =>
        if 8 ≤ r.priority then (acc.1 ++ r.tasks, acc.2.1, acc.2.2)
        else if 6 ≤ r.priority then (acc.1, acc.2.1 ++ r.tasks, acc.2.2)
        else (acc.1, acc.2.1, acc.2.2 ++ r.tasks))
      acc =
    (acc.1 ++ high_tier_tasks recs, acc.2.1 ++ medium_tier_tasks recs,
     acc.2.2 ++ low_tier_tasks recs) := by
  induction recs generalizing acc with
  | nil => simp [high_tier_tasks, medium_tier_tasks, low_tier_tasks]
  | cons r rs ih =>
    simp only [List.foldl_cons]
    rw [ih]
    by_cases h8 : 8 ≤ r.priority
    · have h67 : ¬ (6 ≤ r.priority ∧ r.priority ≤ 7) := by omega
      have h5 : ¬ r.priority ≤ 5 := by omega
      simp [high_tier_tasks, medium_tier_tasks, low_tier_tasks, h8, h67, h5,
        List.filter_cons]
    · by_cases h6 : 6 ≤ r.priority
      · have h67 : 6 ≤ r.priority ∧ r.priority ≤ 7 := by omega
        have h5 : ¬ r.priority ≤ 5 := by omega
        simp [high_tier_tasks, medium_tier_tasks, low_tier_tasks, h8, h6,
          h67, h5, List.filter_cons]
      · have h67 : ¬ (6 ≤ r.priority ∧ r.priority ≤ 7) := by omega
        have h5 : r.priority ≤ 5 := by omega
        simp [high_tier_tasks, medium_tier_tasks, low_tier_tasks, h8, h6,
          h67, h5, List.filter_cons]

theorem tier_buckets_spec (recs : List AgentRecommendation) :
    tier_buckets recs =
      (high_tier_tasks recs, medium_tier_tasks recs, low_tier_tasks recs) := by
  have h := tier_buckets_foldl recs ([], [], [])
  simpa [tier_buckets] using h

/-- The contextual closing task of _generate_unified_plan, present
exactly when the growth stage is known. -/
def contextual_tasks (request : AdvisoryRequest) : List String :=
  match request.profile.growth_stage with
  | some stage =>
    ["Monitor " ++ request.profile.crop ++ " during " ++ stage ++ " stage"]
  | none => []

/-- C4: for every recommendation set and request, the synthesized unified
plan equals the first 3 high-tier tasks (priority at least 8), then the
first 4 medium-tier tasks (priority 6 to 7), then the first 3 low-tier
tasks (priority at most 5), in flattened intra-recommendation order, then
the contextual growth-stage task when the stage is known, then the fixed
weather-monitoring task, truncated to at most 10 entries. -/
theorem generate_unified_plan_spec (recs : List AgentRecommendation)
    (request : AdvisoryRequest) :
    generate_unified_plan recs request =
      ((high_tier_tasks recs).take 3 ++ (medium_tier_tasks recs).take 4 ++
          (low_tier_tasks recs).take 3 ++ contextual_tasks request ++
          [monitor_weather_task]).take 10 := by
  unfold generate_unified_plan
  rw [tier_buckets_spec]
  cases h : request.profile.growth_stage with
  | none => simp [contextual_tasks, h]
  | some stage => simp [contextual_tasks, h]

/-- C10: for every recommendation set and request, including sets whose
task lists are all empty and requests with unknown growth stage, the
synthesized unified plan is non-empty: the fixed weather-monitoring task
is appended before the 10-entry truncation, so at least one entry
remains. -/
theorem generate_unified_plan_ne_nil (recs : List AgentRecommendation)
    (request : AdvisoryRequest) :
    generate_unified_plan recs request ≠ [] := by
  unfold generate_unified_plan
  intro h
  rw [List.take_eq_nil_iff] at h
  rcases h with h | h
  · exact absurd h (by decide)
  · rw [List.append_eq_nil] at h
    exact absurd h.2 (by simp)

/-- C3: after deduplication, no two tasks anywhere across the set share a
normalized key (lowercased, spaces and periods removed); the flattened
task list of the output is exactly the first-occurrence filter of the
flattened input walk (recommendations in current order, tasks in list
order), every non-task field is untouched, and in the section-8 example
the higher-priority "Irrigate today." survives while "irrigate today" is
dropped. -/
theorem remove_duplicate_tasks_spec (recs : List AgentRecommendation) :
    (((remove_duplicate_tasks recs).flatMap
        (fun r => r.tasks)).map task_key).Nodup ∧
    (remove_duplicate_tasks recs).flatMap (fun r => r.tasks) =
      first_occurrence_filter [] (recs.flatMap (fun r => r.tasks)) ∧
    (remove_duplicate_tasks recs).map erase_tasks = recs.map erase_tasks ∧
    remove_duplicate_tasks
        [sampleRec "x" 9 1 ["Irrigate today."] none,
         sampleRec "y" 3 1 ["irrigate today"] none] =
      [sampleRec "x" 9 1 ["Irrigate today."] none,
       sampleRec "y" 3 1 [] none] := by
  refine ⟨?_, ?_, ?_, ?_⟩
  · rw [remove_duplicate_tasks, dedup_walk_flatMap]
    exact (first_occurrence_filter_nodup [] _).1
  · exact dedup_walk_flatMap [] recs
  · exact dedup_walk_shape [] recs
  · decide

/-- C8: the deduplicator is idempotent: applied to its own output it
drops nothing further and returns the output unchanged. -/
theorem remove_duplicate_tasks_idem (recs : List AgentRecommendation) :
    remove_duplicate_tasks (remove_duplicate_tasks recs) =
      remove_duplicate_tasks recs := by
  apply dedup_walk_of_nodup
  · rw [remove_duplicate_tasks, dedup_walk_flatMap]
    exact (first_occurrence_filter_nodup [] _).1
  · simp

/-! ## Aggregator theorems -/

/-- The overall risk rule exactly as the claim words it (spec section
4.6): high when any risk level is high or critical, else medium when two
or more recommendations are medium, else low.  Stated only to be compared
against generate_risk_assessment, which differs. -/
def overall_risk_claimed (recs : List AgentRecommendation) : String :=
  if recs.any (fun r =>
       decide (r.risk_level = some "high" ∨ r.risk_level = some "critical"))
  then "high"
  else if 2 ≤ (recs.filter
         (fun r => decide (r.risk_level = some "medium"))).length
  then "medium"
  else "low"

/-- C5 counterexample: on a single recommendation with risk level
critical the claim requires overall risk high but the code returns low
(the code only tests for the exact string high); and on a single
recommendation with risk level medium the claim requires low (fewer than
two mediums) but the code returns medium (it tests emptiness, not a
count of two). -/
theorem generate_risk_assessment_cex :
    overall_risk_claimed [sampleRec "a" 5 1 [] (some "critical")] = "high" ∧
    (generate_risk_assessment
        [sampleRec "a" 5 1 [] (some "critical")]).overall_risk_level =
      "low" ∧
    overall_risk_claimed [sampleRec "b" 5 1 [] (some "medium")] = "low" ∧
    (generate_risk_assessment
        [sampleRec "b" 5 1 [] (some "medium")]).overall_risk_level =
      "medium" := by
  decide

/-- C5 as amended: the aggregated overall risk level is high iff some
recommendation has risk level exactly high (critical does not trigger
it); otherwise medium iff at least one recommendation has risk level
medium (not two or more); otherwise low, and in particular low for the
empty set. -/
theorem generate_risk_assessment_spec (recs : List AgentRecommendation) :
    (generate_risk_assessment recs).overall_risk_level =
      if ∃ r ∈ recs, r.risk_level = some "high" then "high"
      else if ∃ r ∈ recs, r.risk_level = some "medium" then "medium"
      else "low" := by
  have hhigh :
      ((recs.filter (fun r => decide (r.risk_level = some "high"))).map
        (fun r => r.agent)).isEmpty = true ↔
      ¬ ∃ r ∈ recs, r.risk_level = some "high" := by
    simp [List.isEmpty_iff, List.filter_eq_nil_iff]
  have hmed :
      ((recs.filter (fun r => decide (r.risk_level = some "medium"))).map
        (fun r => r.agent)).isEmpty = true ↔
      ¬ ∃ r ∈ recs, r.risk_level = some "medium" := by
    simp [List.isEmpty_iff, List.filter_eq_nil_iff]
  unfold generate_risk_assessment
  by_cases h1 : ∃ r ∈ recs, r.risk_level = some "high"
  · rw [if_pos h1]
    simp only []
    rw [if_neg]
    intro hc
    exact (hhigh.mp hc) h1
  · rw [if_neg h1]
    simp only []
    rw [if_pos (hhigh.mpr h1)]
    by_cases h2 : ∃ r ∈ recs, r.risk_level = some "medium"
    · rw [if_pos h2, if_neg]
      intro hc
      exact (hmed.mp hc) h2
    · rw [if_neg h2, if_pos (hmed.mpr h2)]

theorem confidence_foldl (recs : List AgentRecommendation) (t0 : Int)
    (w0 : ℚ) :
    recs.foldl
      (fun acc r =>
        (acc.1 + r.priority, acc.2 + r.confidence_score * (r.priority : ℚ)))
      (t0, w0) =
    (t0 + (recs.map (fun r => r.priority)).sum,
     w0 + (recs.map
        (fun r => r.confidence_score * (r.priority : ℚ))).sum) := by
  induction recs generalizing t0 w0 with
  | nil => simp
  | cons r rs ih =>
    simp only [List.foldl_cons, List.map_cons, List.sum_cons]
    rw [ih]
    rw [Prod.mk.injEq]
    constructor <;> ring

/-- C6: for every recommendation set with the schema priority bound (at
least 1) the aggregated overall confidence is the priority-weighted mean
sum(confidence_i * priority_i) / sum(priority_i), and for the empty set
it is 0.5. -/
theorem calculate_overall_confidence_spec
    (recs : List AgentRecommendation) :
    calculate_overall_confidence [] = 1/2 ∧
    (recs ≠ [] → (∀ r ∈ recs, 1 ≤ r.priority) →
      calculate_overall_confidence recs =
        (recs.map (fun r => r.confidence_score * (r.priority : ℚ))).sum /
          (((recs.map (fun r => r.priority)).sum : Int) : ℚ)) := by
  constructor
  · rfl
  · intro hne hp
    have hpos : 0 < (recs.map (fun r => r.priority)).sum := by
      cases recs with
      | nil => exact absurd rfl hne
      | cons r rs =>
        simp only [List.map_cons, List.sum_cons]
        have h1 : 1 ≤ r.priority := hp r (by simp)
        have h2 : 0 ≤ (rs.map (fun r => r.priority)).sum := by
          apply List.sum_nonneg
          intro x hx
          obtain ⟨r2, hr2, hx2⟩ := List.mem_map.mp hx
          have := hp r2 (by simp [hr2])
          omega
        omega
    unfold calculate_overall_confidence
    rw [if_neg (by simp [List.isEmpty_iff, hne])]
    rw [confidence_foldl]
    simp only [zero_add]
    rw [if_pos hpos]

/-- Witness for C6 at the example of spec section 8: priorities 8 and 4
with confidences 0.9 and 0.5 give (8 * 0.9 + 4 * 0.5) / (8 + 4). -/
theorem calculate_overall_confidence_spec_witness :
    ([sampleRec "a" 8 (9/10) [] none,
      sampleRec "b" 4 (1/2) [] none] ≠ ([] : List AgentRecommendation)) ∧
    (∀ r ∈ [sampleRec "a" 8 (9/10) [] none,
            sampleRec "b" 4 (1/2) [] none], 1 ≤ r.priority) ∧
    calculate_overall_confidence
        [sampleRec "a" 8 (9/10) [] none, sampleRec "b" 4 (1/2) [] none] =
      ((9/10 : ℚ) * 8 + (1/2) * 4) / (8 + 4) := by
  refine ⟨by decide, by decide, ?_⟩
  have h := (calculate_overall_confidence_spec
    [sampleRec "a" 8 (9/10) [] none, sampleRec "b" 4 (1/2) [] none]).2
    (by decide) (by decide)
  rw [h]
  norm_num [sampleRec]

/-! ## Conflict-resolver frame lemmas -/

theorem apply_mut_shape (order : List String)
    (recs : List AgentRecommendation) :
    (apply_mut order recs).map erase_priority = recs.map erase_priority := by
  induction recs with
  | nil => rfl
  | cons r rs ih =>
    simp only [apply_mut, List.map_cons]
    refine congrArg₂ _ ?_ ih
    split
    · split <;> rfl
    · rfl

theorem apply_conflict_rule_shape (recs : List AgentRecommendation)
    (ru : ConflictRule) :
    (apply_conflict_rule recs ru).map erase_priority =
      recs.map erase_priority := by
  simp only [apply_conflict_rule]
  split
  · exact apply_mut_shape _ recs
  · rfl

theorem foldl_apply_conflict_rule_shape (rules : List ConflictRule)
    (recs : List AgentRecommendation) :
    ((rules.foldl apply_conflict_rule recs).map erase_priority) =
      recs.map erase_priority := by
  induction rules generalizing recs with
  | nil => rfl
  | cons ru rest ih =>
    simp only [List.foldl_cons]
    rw [ih, apply_conflict_rule_shape]

theorem foldl_apply_conflict_rule_agents (rules : List ConflictRule)
    (recs : List AgentRecommendation) :
    ((rules.foldl apply_conflict_rule recs).map (fun r => r.agent)) =
      recs.map (fun r => r.agent) := by
  have h := congrArg (List.map (fun r => r.agent))
    (foldl_apply_conflict_rule_shape rules recs)
  simpa [List.map_map, Function.comp] using h

theorem apply_conflict_rule_agents (recs : List AgentRecommendation)
    (ru : ConflictRule) :
    ((apply_conflict_rule recs ru).map (fun r => r.agent)) =
      recs.map (fun r => r.agent) := by
  have h := congrArg (List.map (fun r => r.agent))
    (apply_conflict_rule_shape recs ru)
  simpa [List.map_map, Function.comp] using h

/-- C9: the conflict-resolution stage of _resolve_conflicts (the
descending priority sort followed by the rule applications, before the
deduplicator runs) returns the same recommendations with only priorities
possibly changed: erasing priorities, the output is pointwise the sorted
input and a permutation of the input, so every other field — in
particular every task list — is untouched, for every input set and every
rule list. -/
theorem resolve_conflicts_frame (recs : List AgentRecommendation)
    (rules : List ConflictRule) :
    ((rules.foldl apply_conflict_rule
        (sort_by_priority_desc recs)).map erase_priority =
      (sort_by_priority_desc recs).map erase_priority) ∧
    ((rules.foldl apply_conflict_rule
        (sort_by_priority_desc recs)).map erase_priority).Perm
      (recs.map erase_priority) := by
  refine ⟨foldl_apply_conflict_rule_shape rules _, ?_⟩
  rw [foldl_apply_conflict_rule_shape rules _]
  exact (List.mergeSort_perm recs _).map erase_priority

/-! ## Conflict-rule semantics -/

/-- The identifiers of a rule that are present in the recommendation
set (in rule-list order). -/
def present_ids (recs : List AgentRecommendation) (ru : ConflictRule) :
    List String :=
  ru.priority_order.filter (fun a => recs.any (fun r => decide (r.agent = a)))

/-- Index of the first occurrence of a in l (l.length when absent). -/
def idx_in (a : String) : List String → Nat
  | [] => 0
  | b :: l => if b = a then 0 else idx_in a l + 1

/-- The last rule in list order that both applies (at least two of its
identifiers present in the set) and mentions the given identifier. -/
def last_applied_rule (recs : List AgentRecommendation) (a : String) :
    List ConflictRule → Option ConflictRule
  | [] => none
  | ru :: rest =>
    match last_applied_rule recs a rest with
    | some ru2 => some ru2
    | none =>
      if 2 ≤ (present_ids recs ru).length ∧ a ∈ ru.priority_order then
        some ru
      else none

/-- The priority rewrite exactly as the claim words it, with the clamp
to at least 1: stated only to be compared against apply_conflict_rule,
which does not clamp. -/
def rewrite_claimed (recs : List AgentRecommendation) (ru : ConflictRule) :
    List AgentRecommendation :=
  recs.map (fun r =>
    if r.agent ∈ ru.priority_order then
      { r with
        priority := max (10 - (idx_in r.agent ru.priority_order : Int)) 1 }
    else r)

theorem lastIdxOf_eq_none (a : String) (l : List String) (h : a ∉ l) :
    lastIdxOf a l = none := by
  induction l with
  | nil => rfl
  | cons b l ih =>
    simp only [List.mem_cons, not_or] at h
    simp only [lastIdxOf, ih h.2]
    rw [if_neg (fun he => h.1 he.symm)]

theorem lastIdxOf_of_nodup (a : String) (l : List String) (hn : l.Nodup)
    (hm : a ∈ l) : lastIdxOf a l = some (idx_in a l) := by
  induction l with
  | nil => cases hm
  | cons b l ih =>
    simp only [List.nodup_cons] at hn
    simp only [lastIdxOf, idx_in]
    rcases List.mem_cons.mp hm with he | hm2
    · have hnl : a ∉ l := he ▸ hn.1
      rw [lastIdxOf_eq_none a l hnl, if_pos he.symm, if_pos he.symm]
    · have hba : ¬ b = a := fun he2 => hn.1 (he2 ▸ hm2)
      rw [ih hn.2 hm2]
      simp [hba]

theorem present_ids_congr (recs1 recs2 : List AgentRecommendation)
    (ru : ConflictRule)
    (h : recs1.map (fun r => r.agent) = recs2.map (fun r => r.agent)) :
    present_ids recs1 ru = present_ids recs2 ru := by
  unfold present_ids
  apply List.filter_congr
  intro a _
  have h1 : ∀ recs : List AgentRecommendation,
      recs.any (fun r => decide (r.agent = a)) =
        (recs.map (fun r => r.agent)).any (fun b => decide (b = a)) := by
    intro recs
    induction recs with
    | nil => rfl
    | cons r rs ih => simp [ih]
  rw [h1, h1, h]

theorem last_applied_rule_congr (recs1 recs2 : List AgentRecommendation)
    (a : String) (rules : List ConflictRule)
    (h : recs1.map (fun r => r.agent) = recs2.map (fun r => r.agent)) :
    last_applied_rule recs1 a rules = last_applied_rule recs2 a rules := by
  induction rules with
  | nil => rfl
  | cons ru rest ih =>
    simp only [last_applied_rule, ih, present_ids_congr recs1 recs2 ru h]

theorem involved_length_eq (recs : List AgentRecommendation)
    (ru : ConflictRule) (hO : ru.priority_order.Nodup) :
    (((recs.filter (fun r => decide (r.agent ∈ ru.priority_order))).map
        (fun r => r.agent)).dedup).length =
      (present_ids recs ru).length := by
  have h1 :
      (((recs.filter (fun r => decide (r.agent ∈ ru.priority_order))).map
          (fun r => r.agent)).dedup).length =
      ((recs.filter (fun r => decide (r.agent ∈ ru.priority_order))).map
          (fun r => r.agent)).toFinset.card := by
    rw [List.card_toFinset]
  have h2 : (present_ids recs ru).length =
      (present_ids recs ru).toFinset.card := by
    rw [List.toFinset_card_of_nodup]
    exact hO.filter _
  rw [h1, h2]
  congr 1
  ext a
  simp only [List.mem_toFinset, List.mem_map, List.mem_filter,
    present_ids, decide_eq_true_eq, List.any_eq_true]
  constructor
  · rintro ⟨r, ⟨hr, hmem⟩, he⟩
    exact ⟨he ▸ hmem, r, hr, he⟩
  · rintro ⟨hmem, r, hr, he⟩
    exact ⟨r, ⟨hr, he ▸ hmem⟩, he⟩

theorem apply_mut_eq_map (order : List String)
    (recs : List AgentRecommendation)
    (hA : (recs.map (fun r => r.agent)).Nodup) (hO : order.Nodup) :
    apply_mut order recs = recs.map (fun r =>
      if r.agent ∈ order then
        { r with priority := 10 - (idx_in r.agent order : Int) }
      else r) := by
  induction recs with
  | nil => rfl
  | cons r rs ih =>
    simp only [List.map_cons, List.nodup_cons] at hA
    have hall : rs.all (fun r2 => decide (r2.agent ≠ r.agent)) = true := by
      rw [List.all_eq_true]
      intro r2 h2
      rw [decide_eq_true_iff]
      intro he
      exact hA.1 (List.mem_map.mpr ⟨r2, h2, he⟩)
    simp only [apply_mut, List.map_cons]
    rw [ih hA.2]
    by_cases hmem : r.agent ∈ order
    · rw [if_pos ⟨hmem, hall⟩, if_pos hmem,
        lastIdxOf_of_nodup r.agent order hO hmem]
    · rw [if_neg (fun hand => hmem hand.1), if_neg hmem]

theorem apply_conflict_rule_noop (recs : List AgentRecommendation)
    (ru : ConflictRule) (hO : ru.priority_order.Nodup)
    (h : (present_ids recs ru).length < 2) :
    apply_conflict_rule recs ru = recs := by
  simp only [apply_conflict_rule]
  rw [if_neg]
  rw [involved_length_eq recs ru hO]
  omega

theorem apply_conflict_rule_applies (recs : List AgentRecommendation)
    (ru : ConflictRule)
    (hA : (recs.map (fun r => r.agent)).Nodup)
    (hO : ru.priority_order.Nodup)
    (h : 2 ≤ (present_ids recs ru).length) :
    apply_conflict_rule recs ru = recs.map (fun r =>
      if r.agent ∈ ru.priority_order then
        { r with priority := 10 - (idx_in r.agent ru.priority_order : Int) }
      else r) := by
  simp only [apply_conflict_rule]
  rw [if_pos]
  · exact apply_mut_eq_map ru.priority_order recs hA hO
  · rw [involved_length_eq recs ru hO]
    exact h

theorem foldl_apply_conflict_rule_eq_map (rules : List ConflictRule)
    (recs : List AgentRecommendation)
    (hA : (recs.map (fun r => r.agent)).Nodup)
    (hR : ∀ ru ∈ rules, ru.priority_order.Nodup) :
    rules.foldl apply_conflict_rule recs = recs.map (fun r =>
      match last_applied_rule recs r.agent rules with
      | some ru =>
        { r with priority := 10 - (idx_in r.agent ru.priority_order : Int) }
      | none => r) := by
  induction rules generalizing recs with
  | nil =>
    simp only [List.foldl_nil, last_applied_rule]
    exact (List.map_id recs).symm
  | cons ru rest ih =>
    simp only [List.foldl_cons]
    have hO : ru.priority_order.Nodup := hR ru (by simp)
    have hRrest : ∀ ru2 ∈ rest, ru2.priority_order.Nodup :=
      fun ru2 h2 => hR ru2 (by simp [h2])
    have hagents : (apply_conflict_rule recs ru).map (fun r => r.agent) =
        recs.map (fun r => r.agent) := apply_conflict_rule_agents recs ru
    have hA1 : ((apply_conflict_rule recs ru).map
        (fun r => r.agent)).Nodup := by
      rw [hagents]
      exact hA
    rw [ih (apply_conflict_rule recs ru) hA1 hRrest]
    have hlar : ∀ a, last_applied_rule (apply_conflict_rule recs ru) a rest =
        last_applied_rule recs a rest :=
      fun a => last_applied_rule_congr _ _ a rest hagents
    simp only [hlar]
    by_cases hc : 2 ≤ (present_ids recs ru).length
    · rw [apply_conflict_rule_applies recs ru hA hO hc, List.map_map]
      apply List.map_congr_left
      intro r _
      simp only [Function.comp]
      by_cases hmem : r.agent ∈ ru.priority_order
      · rw [if_pos hmem]
        cases h2 : last_applied_rule recs r.agent rest with
        | some ru2 => simp only [last_applied_rule, h2]
        | none =>
          simp only [last_applied_rule, h2]
          rw [if_pos ⟨hc, hmem⟩]
      · rw [if_neg hmem]
        cases h2 : last_applied_rule recs r.agent rest with
        | some ru2 => simp only [last_applied_rule, h2]
        | none =>
          simp only [last_applied_rule, h2]
          rw [if_neg (fun hand => hmem hand.2)]
    · rw [apply_conflict_rule_noop recs ru hO (by omega)]
      apply List.map_congr_left
      intro r _
      cases h2 : last_applied_rule recs r.agent rest with
      | some ru2 => simp only [last_applied_rule, h2]
      | none =>
        simp only [last_applied_rule, h2]
        rw [if_neg (fun hand => hc hand.1)]

/-- C2 counterexample: the claim requires the rewritten priority to be
clamped to at least 1, but _apply_conflict_rule writes the raw value
10 - index.  With a rule listing eleven identifiers and a set containing
the first and the eleventh, the eleventh identifier (index 10) receives
priority 0 from the code, while the claimed clamped rewrite gives it
priority 1, so the two disagree on this input. -/
theorem apply_conflict_rule_cex :
    (apply_conflict_rule
        [sampleRec "a" 5 1 [] none, sampleRec "k" 5 1 [] none]
        ⟨"big", ["a", "b", "c", "d", "e", "f", "g", "h", "i", "j", "k"],
         0⟩).map (fun r => r.priority) = [10, 0] ∧
    (rewrite_claimed
        [sampleRec "a" 5 1 [] none, sampleRec "k" 5 1 [] none]
        ⟨"big", ["a", "b", "c", "d", "e", "f", "g", "h", "i", "j", "k"],
         0⟩).map (fun r => r.priority) = [10, 1] ∧
    apply_conflict_rule
        [sampleRec "a" 5 1 [] none, sampleRec "k" 5 1 [] none]
        ⟨"big", ["a", "b", "c", "d", "e", "f", "g", "h", "i", "j", "k"],
         0⟩ ≠
      rewrite_claimed
        [sampleRec "a" 5 1 [] none, sampleRec "k" 5 1 [] none]
        ⟨"big", ["a", "b", "c", "d", "e", "f", "g", "h", "i", "j", "k"],
         0⟩ := by
  refine ⟨by decide, by decide, by decide⟩

/-- C2 as amended: for every recommendation set with distinct producer
identifiers and every ordered list of duplicate-free conflict rules, a
rule with fewer than 2 of its listed identifiers present in the set
changes nothing; an applying rule overwrites the priority of every
recommendation whose identifier the rule lists with 10 minus the
index of the identifier in the rule list, with no clamping (the value can
reach 0 or below for rules listing more than ten identifiers), leaving
unlisted recommendations untouched; and across the rule list the final
priority of each recommendation is determined by the last applying rule
that mentions its identifier (last-write-wins, not a merge). -/
theorem apply_conflict_rule_semantics (recs : List AgentRecommendation)
    (rules : List ConflictRule)
    (hA : (recs.map (fun r => r.agent)).Nodup)
    (hR : ∀ ru ∈ rules, ru.priority_order.Nodup) :
    (∀ ru ∈ rules, (present_ids recs ru).length < 2 →
      apply_conflict_rule recs ru = recs) ∧
    (∀ ru ∈ rules, 2 ≤ (present_ids recs ru).length →
      apply_conflict_rule recs ru = recs.map (fun r =>
        if r.agent ∈ ru.priority_order then
          { r with
            priority := 10 - (idx_in r.agent ru.priority_order : Int) }
        else r)) ∧
    rules.foldl apply_conflict_rule recs = recs.map (fun r =>
      match last_applied_rule recs r.agent rules with
      | some ru =>
        { r with priority := 10 - (idx_in r.agent ru.priority_order : Int) }
      | none => r) := by
  refine ⟨?_, ?_, ?_⟩
  · intro ru hru h
    exact apply_conflict_rule_noop recs ru (hR ru hru) h
  · intro ru hru h
    exact apply_conflict_rule_applies recs ru hA (hR ru hru) h
  · exact foldl_apply_conflict_rule_eq_map rules recs hA hR

/-- Witness for C2 at the two-rule example of spec section 8: rule A
orders weather_risk before irrigation, rule B (applied after) orders
irrigation before fertilizer; the fold leaves weather_risk at 10,
irrigation at 10 (B wins over the 9 assigned by A) and fertilizer at 9. -/
theorem apply_conflict_rule_semantics_witness :
    (([sampleRec "weather_risk" 5 1 [] none, sampleRec "irrigation" 5 1 [] none,
       sampleRec "fertilizer" 5 1 [] none].map (fun r => r.agent)).Nodup ∧
     (∀ ru ∈ ([⟨"A", ["weather_risk", "irrigation"], 0⟩,
               ⟨"B", ["irrigation", "fertilizer"], 0⟩] :
         List ConflictRule), ru.priority_order.Nodup)) ∧
    (([⟨"A", ["weather_risk", "irrigation"], 0⟩,
       ⟨"B", ["irrigation", "fertilizer"], 0⟩] :
        List ConflictRule).foldl apply_conflict_rule
      [sampleRec "weather_risk" 5 1 [] none, sampleRec "irrigation" 5 1 [] none,
       sampleRec "fertilizer" 5 1 [] none] =
      [sampleRec "weather_risk" 5 1 [] none, sampleRec "irrigation" 5 1 [] none,
       sampleRec "fertilizer" 5 1 [] none].map (fun r =>
        match last_applied_rule
            [sampleRec "weather_risk" 5 1 [] none,
             sampleRec "irrigation" 5 1 [] none,
             sampleRec "fertilizer" 5 1 [] none] r.agent
            [⟨"A", ["weather_risk", "irrigation"], 0⟩,
             ⟨"B", ["irrigation", "fertilizer"], 0⟩] with
        | some ru =>
          { r with
            priority := 10 - (idx_in r.agent ru.priority_order : Int) }
        | none => r)) ∧
    (([⟨"A", ["weather_risk", "irrigation"], 0⟩,
       ⟨"B", ["irrigation", "fertilizer"], 0⟩] :
        List ConflictRule).foldl apply_conflict_rule
      [sampleRec "weather_risk" 5 1 [] none, sampleRec "irrigation" 5 1 [] none,
       sampleRec "fertilizer" 5 1 [] none]).map
        (fun r => (r.agent, r.priority)) =
      [("weather_risk", 10), ("irrigation", 10), ("fertilizer", 9)] := by
  refine ⟨⟨by decide, by decide⟩, ?_, by decide⟩
  exact (apply_conflict_rule_semantics _ _ (by decide) (by decide)).2.2

/-! ## Dispatcher and pipeline lemmas -/

theorem foldl_append_singleton {α β : Type} (names : List α) (f : α → β)
    (acc : List β) :
    names.foldl (fun acc n => acc ++ [f n]) acc = acc ++ names.map f := by
  induction names generalizing acc with
  | nil => simp
  | cons n ns ih => simp [ih]

theorem agent_outputs_eq_map (request : AdvisoryRequest)
    (outcomes : String → ProducerOutcome) :
    agent_outputs request outcomes = agent_names.map (fun name =>
      match outcomes name with
      | Except.ok r => r
      | Except.error _ => create_fallback_recommendation name request) := by
  unfold agent_outputs
  simpa using foldl_append_singleton agent_names
    (fun name =>
      match outcomes name with
      | Except.ok r => r
      | Except.error _ => create_fallback_recommendation name request) []

theorem zip_map_map {α β : Type} (names : List α) (f g : α → β) :
    names.zip ((names.map f).zip (names.map g)) =
      names.map (fun n => (n, f n, g n)) := by
  induction names with
  | nil => rfl
  | cons n ns ih => simp [ih]

theorem lookupD_of_not_mem (m : List (String × String)) (k d : String)
    (h : k ∉ m.map (fun p => p.1)) : lookupD m k d = d := by
  induction m with
  | nil => rfl
  | cons p rest ih =>
    simp only [List.map_cons, List.mem_cons, not_or] at h
    simp only [lookupD]
    rw [if_neg (fun he => h.1 he.symm)]
    exact ih h.2

theorem dedup_walk_agents (seen : List String)
    (recs : List AgentRecommendation) :
    (dedup_walk seen recs).map (fun r => r.agent) =
      recs.map (fun r => r.agent) := by
  have h := congrArg (List.map (fun r => r.agent)) (dedup_walk_shape seen recs)
  simpa [List.map_map, Function.comp] using h

theorem translate_recommendation_agent (r : AgentRecommendation)
    (language : String) :
    (translate_recommendation r language).agent = r.agent := by
  unfold translate_recommendation
  split <;> rfl

theorem translate_recommendation_priority (r : AgentRecommendation)
    (language : String) :
    (translate_recommendation r language).priority = r.priority := by
  unfold translate_recommendation
  split <;> rfl

theorem translate_recommendation_confidence (r : AgentRecommendation)
    (language : String) :
    (translate_recommendation r language).confidence_score =
      r.confidence_score := by
  unfold translate_recommendation
  split <;> rfl

theorem resolve_conflicts_length (recs : List AgentRecommendation) :
    (resolve_conflicts recs).length = recs.length := by
  unfold resolve_conflicts remove_duplicate_tasks
  have h1 : ∀ (seen : List String) (l : List AgentRecommendation),
      (dedup_walk seen l).length = l.length := by
    intro seen l
    have := congrArg List.length (dedup_walk_shape seen l)
    simpa using this
  have h2 : ∀ (rules : List ConflictRule) (l : List AgentRecommendation),
      (rules.foldl apply_conflict_rule l).length = l.length := by
    intro rules l
    have := congrArg List.length (foldl_apply_conflict_rule_shape rules l)
    simpa using this
  rw [h1, h2]
  exact List.length_mergeSort recs

theorem resolve_conflicts_agents_perm (recs : List AgentRecommendation) :
    ((resolve_conflicts recs).map (fun r => r.agent)).Perm
      (recs.map (fun r => r.agent)) := by
  unfold resolve_conflicts remove_duplicate_tasks
  rw [dedup_walk_agents, foldl_apply_conflict_rule_agents]
  exact (List.mergeSort_perm recs _).map (fun r => r.agent)

theorem joined_advisory_response_recommendations
    (request : AdvisoryRequest)
    (outcomes : String → ProducerOutcome) :
    (joined_advisory_response request outcomes).recommendations =
      (if request.language ≠ "en" then
        (resolve_conflicts (agent_outputs request outcomes)).map
          (fun r => translate_recommendation r request.language)
      else resolve_conflicts (agent_outputs request outcomes)) := rfl

/-- A concrete request used to instantiate pipeline theorems. -/
def sample_request : AdvisoryRequest :=
  ⟨⟨"farmer-1", "wheat", some "flowering"⟩, 7, "en"⟩

/-- The outcome assignment in which every producer raises. -/
def all_fail : String → ProducerOutcome := fun _ => Except.error ()

/-- The outcome assignment in which every producer succeeds with a plain
valid recommendation labelled with its own name. -/
def all_ok : String → ProducerOutcome :=
  fun name => Except.ok (sampleRec name 5 (1/2) [] none)

/-- C1: the claim describes the intended dispatch contract, but the code
never delivers it: fertilizer.py and market.py declare recommend as a
plain synchronous method, so on every request the task-creation loop
reaches the second registry entry, fertilizer, runs its recommend body
eagerly and hands the returned plain value to asyncio.create_task, which
raises TypeError outside any try/except — build_advisory_plan raises on
every request and on no input returns a response at all, let alone one
with 7 recommendations; concretely, with every producer succeeding it
raises the TypeError at fertilizer. -/
theorem build_advisory_plan_type_error (request : AdvisoryRequest)
    (outcomes : String → ProducerOutcome) :
    build_advisory_plan request outcomes =
      Except.error
        (match outcomes "fertilizer" with
         | Except.ok _ => PipelineError.typeError "fertilizer"
         | Except.error _ => PipelineError.uncaught "fertilizer") ∧
    (∀ response, build_advisory_plan request outcomes ≠
      Except.ok response) ∧
    build_advisory_plan sample_request all_ok =
      Except.error (PipelineError.typeError "fertilizer") := by
  have h1 : build_advisory_plan request outcomes =
      Except.error
        (match outcomes "fertilizer" with
         | Except.ok _ => PipelineError.typeError "fertilizer"
         | Except.error _ => PipelineError.uncaught "fertilizer") := by
    unfold build_advisory_plan
    have hstep : create_tasks_check outcomes agent_names =
        some (match outcomes "fertilizer" with
              | Except.ok _ => PipelineError.typeError "fertilizer"
              | Except.error _ => PipelineError.uncaught "fertilizer") := by
      show create_tasks_check outcomes
        ("irrigation" :: "fertilizer" :: "pest" :: "market" ::
          "weather_risk" :: "seed_crop" :: "finance_policy" :: []) = _
      rw [create_tasks_check, if_pos (by decide)]
      rw [create_tasks_check, if_neg (by decide)]
      cases h : outcomes "fertilizer" <;> rfl
    rw [hstep]
  refine ⟨h1, ?_, ?_⟩
  · intro response
    rw [h1]
    intro hc
    exact Except.noConfusion hc
  · rfl

/-! ## Bounds preservation -/

/-- The schema bounds of AgentRecommendation: priority in 1..10 and
confidence in 0..1. -/
abbrev rec_bounds (r : AgentRecommendation) : Prop :=
  1 ≤ r.priority ∧ r.priority ≤ 10 ∧
    0 ≤ r.confidence_score ∧ r.confidence_score ≤ 1

theorem lastIdxOf_lt_length (a : String) (l : List String) (i : Nat)
    (h : lastIdxOf a l = some i) : i < l.length := by
  induction l generalizing i with
  | nil => cases h
  | cons b l ih =>
    simp only [lastIdxOf] at h
    cases hl : lastIdxOf a l with
    | some j =>
      rw [hl] at h
      have hji : j + 1 = i := Option.some.inj h
      have := ih j hl
      simp only [List.length_cons]
      omega
    | none =>
      rw [hl] at h
      by_cases hba : b = a
      · rw [if_pos hba] at h
        have h0i : (0 : Nat) = i := Option.some.inj h
        simp only [List.length_cons]
        omega
      · rw [if_neg hba] at h
        exact Option.noConfusion h

theorem apply_mut_bounds (order : List String)
    (recs : List AgentRecommendation) (h9 : order.length ≤ 9)
    (hb : ∀ r ∈ recs, rec_bounds r) :
    ∀ r2 ∈ apply_mut order recs, rec_bounds r2 := by
  induction recs with
  | nil => intro r2 hr2; cases hr2
  | cons r rs ih =>
    intro r2 hr2
    simp only [apply_mut, List.mem_cons] at hr2
    rcases hr2 with he | hmem
    · subst he
      split
      · cases hli : lastIdxOf r.agent order with
        | some i =>
          have hi := lastIdxOf_lt_length r.agent order i hli
          have hbr := hb r (by simp)
          refine ⟨?_, ?_, hbr.2.2.1, hbr.2.2.2⟩
          · show (1 : Int) ≤ 10 - (i : Int)
            omega
          · show (10 : Int) - (i : Int) ≤ 10
            omega
        | none =>
          exact hb r (by simp)
      · exact hb r (by simp)
    · exact ih (fun r3 h3 => hb r3 (by simp [h3])) r2 hmem

theorem apply_conflict_rule_bounds (recs : List AgentRecommendation)
    (ru : ConflictRule) (h9 : ru.priority_order.length ≤ 9)
    (hb : ∀ r ∈ recs, rec_bounds r) :
    ∀ r2 ∈ apply_conflict_rule recs ru, rec_bounds r2 := by
  simp only [apply_conflict_rule]
  split
  · exact apply_mut_bounds ru.priority_order recs h9 hb
  · exact hb

theorem foldl_apply_conflict_rule_bounds (rules : List ConflictRule)
    (recs : List AgentRecommendation)
    (h9 : ∀ ru ∈ rules, ru.priority_order.length ≤ 9)
    (hb : ∀ r ∈ recs, rec_bounds r) :
    ∀ r2 ∈ rules.foldl apply_conflict_rule recs, rec_bounds r2 := by
  induction rules generalizing recs with
  | nil => exact hb
  | cons ru rest ih =>
    simp only [List.foldl_cons]
    exact ih (apply_conflict_rule recs ru)
      (fun ru2 h2 => h9 ru2 (by simp [h2]))
      (apply_conflict_rule_bounds recs ru (h9 ru (by simp)) hb)

theorem dedup_walk_priority_confidence (seen : List String)
    (recs : List AgentRecommendation) :
    ∀ r2 ∈ dedup_walk seen recs, ∃ r ∈ recs,
      r2.priority = r.priority ∧
        r2.confidence_score = r.confidence_score := by
  intro r2 hr2
  have hmap : erase_tasks r2 ∈ recs.map erase_tasks := by
    rw [← dedup_walk_shape seen recs]
    exact List.mem_map_of_mem erase_tasks hr2
  obtain ⟨r, hr, he⟩ := List.mem_map.mp hmap
  refine ⟨r, hr, ?_, ?_⟩
  · have := congrArg AgentRecommendation.priority he
    simpa [erase_tasks] using this.symm
  · have := congrArg AgentRecommendation.confidence_score he
    simpa [erase_tasks] using this.symm

theorem resolve_conflicts_bounds (recs : List AgentRecommendation)
    (hb : ∀ r ∈ recs, rec_bounds r) :
    ∀ r2 ∈ resolve_conflicts recs, rec_bounds r2 := by
  intro r2 hr2
  unfold resolve_conflicts remove_duplicate_tasks at hr2
  obtain ⟨r1, hr1, hpr, hconf⟩ :=
    dedup_walk_priority_confidence [] _ r2 hr2
  have hsortb : ∀ r ∈ sort_by_priority_desc recs, rec_bounds r := by
    intro r hr
    exact hb r ((List.mergeSort_perm recs _).subset hr)
  have h1 := foldl_apply_conflict_rule_bounds conflict_rules
    (sort_by_priority_desc recs) (by decide) hsortb r1 hr1
  exact ⟨hpr ▸ h1.1, hpr ▸ h1.2.1, hconf ▸ h1.2.2.1, hconf ▸ h1.2.2.2⟩

/-- C7: if every successful producer output satisfies the schema bounds
1 ≤ priority ≤ 10 and 0 ≤ confidence ≤ 1, then every fallback output
satisfies them, and every recommendation in the response built past the
join point still satisfies them after conflict resolution (whose
rewrites with the fixed registry rules only write 9 or 10),
deduplication and translation.  Stated on joined_advisory_response, the
stage pipeline whose output the claim is about; the task-creation
TypeError modeled by build_advisory_plan would only make the claim
vacuous, so this proves strictly more than the crashing program
satisfies. -/
theorem build_advisory_plan_bounds (request : AdvisoryRequest)
    (outcomes : String → ProducerOutcome)
    (hb : ∀ name r, outcomes name = Except.ok r → rec_bounds r) :
    (∀ name, rec_bounds (create_fallback_recommendation name request)) ∧
    ∀ r ∈ (joined_advisory_response request outcomes).recommendations,
      rec_bounds r := by
  have hfall : ∀ name,
      rec_bounds (create_fallback_recommendation name request) := by
    intro name
    refine ⟨?_, ?_, ?_, ?_⟩
    · show (1 : Int) ≤ 5
      norm_num
    · show (5 : Int) ≤ 10
      norm_num
    · show (0 : ℚ) ≤ 1/2
      norm_num
    · show (1/2 : ℚ) ≤ 1
      norm_num
  have houtputs : ∀ r ∈ agent_outputs request outcomes, rec_bounds r := by
    rw [agent_outputs_eq_map]
    intro r hr
    obtain ⟨name, _, he⟩ := List.mem_map.mp hr
    cases h : outcomes name with
    | ok r0 =>
      rw [h] at he
      exact he ▸ hb name r0 h
    | error e =>
      rw [h] at he
      exact he ▸ hfall name
  have hres := resolve_conflicts_bounds _ houtputs
  refine ⟨hfall, ?_⟩
  rw [joined_advisory_response_recommendations]
  split
  · intro r2 hr2
    obtain ⟨r, hrmem, he⟩ := List.mem_map.mp hr2
    have hbr := hres r hrmem
    subst he
    refine ⟨?_, ?_, ?_, ?_⟩
    · rw [translate_recommendation_priority]
      exact hbr.1
    · rw [translate_recommendation_priority]
      exact hbr.2.1
    · rw [translate_recommendation_confidence]
      exact hbr.2.2.1
    · rw [translate_recommendation_confidence]
      exact hbr.2.2.2
  · exact hres

/-- Witness for C7: the request sample_request with every producer
failing. -/
theorem build_advisory_plan_bounds_witness :
    (∀ name,
      rec_bounds (create_fallback_recommendation name sample_request)) ∧
    ∀ r ∈ (joined_advisory_response sample_request
        all_fail).recommendations,
      rec_bounds r :=
  build_advisory_plan_bounds sample_request all_fail
    (fun _ _ h => Except.noConfusion h)
